import Mathlib

/-!
Shallow embedding of the `tlcache` repository (Python 2):
`src/tlcache/cache.py` (key derivation, `SimpleCache`, `FileSystemCache`)
and `src/tlcache/tlcache.py` (`TLCache` orchestrator).

Modelling conventions:
* `time.time()` values are rationals (`ℚ`), passed explicitly as `now`.
* Python values are the inductive `PyVal`; Python truthiness is `pyTruthy`,
  `unicode(x)` is `pyStr`.  The pickle codec is modelled as the identity
  (values we store always round-trip), except for a partially written disk
  file (`FileData.halfWritten`), whose payload load raises: `cPickle`
  raises `EOFError` on the truncated payload stream, and `EOFError` is not
  a `PickleError`, so the disk tier's `get` does not catch it
  (`FsRead.raise`).
* Mutation is explicit state passing; an operation that can observably
  mutate returns the new state.
* A Python function raising is an `Except.error`; a function body is
  represented by its outcome, since the cache never inspects the callable
  beyond calling it and reading `__name__` / `getargspec`.
-/

namespace TLCacheModel

/-- A Python value, as far as the cache can distinguish values.
`notInCache` is the `NotInCache` sentinel instance from `tlcache.py`
(used to cache empty results instead of `None`). -/
inductive PyVal where
  | none
  | notInCache
  | int (n : Int)
  | str (s : String)
deriving DecidableEq, Repr, Inhabited

/-- Python truthiness (`bool(x)`): `None`, `0` and `""` are falsy; a
`NotInCache` instance is truthy. -/
def pyTruthy : PyVal → Bool
  | PyVal.none => false
  | PyVal.notInCache => true
  | PyVal.int n => n != 0
  | PyVal.str s => !s.isEmpty

/-- `unicode(x)` as used by `generate_cache_key`: strings pass through
verbatim, integers render in decimal.  (`None` / `NotInCache` renderings
are fixed but otherwise irrelevant to the claims.) -/
def pyStr : PyVal → String
  | PyVal.none => "None"
  | PyVal.notInCache => "NotInCache"
  | PyVal.int n => toString n
  | PyVal.str s => s

/-- The parts of a Python function object that `cache.py` inspects:
`f.__name__` and `inspect.getargspec(f)[0]` (the declared parameter
names). -/
structure PyFunc where
  funcName : String
  params : List String
deriving DecidableEq, Repr

/-- The `f` argument of `generate_cache_key`: a function object or a
plain string standing in for one. -/
inductive FuncRef where
  | func (f : PyFunc)
  | str (s : String)
deriving DecidableEq, Repr

/-- `inspect.getargspec(f)[0]`.  On a string argument Python 2's
`inspect.getargspec` raises `TypeError` (it is not a function), modelled
as `Option.none`. -/
def getargspec0 : FuncRef → Option (List String)
  | FuncRef.func f => some f.params
  | FuncRef.str _ => Option.none

/-- `f.__name__` for a function object, or the string itself
(`cache.py` lines 26-29). -/
def keyNameOf : FuncRef → String
  | FuncRef.func f => f.funcName
  | FuncRef.str s => s

/-- `generate_cache_key(namespace, f, *args, **kwargs)` from
`cache.py` lines 16-41.  `Option.none` models the call raising.
`inspect.getargspec(f)` runs first, so a string `f` makes the whole call
raise before the `basestring` branch is reached. -/
def generate_cache_key (namespace_ : Option String) (f : FuncRef)
    (args : List PyVal) (kwargs : List (String × PyVal)) : Option String :=
  match getargspec0 f with
  | Option.none => Option.none
  | some params =>
    let hasSelf : Bool :=
      match params with
      | [] => false
      | p :: _ => p == "self" || p == "cls"
    let args := if hasSelf then args.tail else args
    let keyName := keyNameOf f
    let ns :=
      match namespace_ with
      | Option.none => keyName
      | some n => if n.isEmpty then keyName else n ++ "|" ++ keyName
    let sortedKw := kwargs.mergeSort (fun a b => a.1 ≤ b.1)
    let kwItems := sortedKw.map (fun p => p.1 ++ "," ++ pyStr p.2)
    some (String.intercalate ":" ([ns] ++ args.map pyStr ++ kwItems))

/-! ### Association-list primitives (Python dict / directory as a list
in its fixed enumeration order) -/

/-- `d[k]` lookup, `Option.none` for `KeyError`. -/
def lookupKey {α : Type} : List (String × α) → String → Option α
  | [], _ => Option.none
  | (k, v) :: rest, key => if k = key then some v else lookupKey rest key

/-- `d[k] = v`: replace the existing binding in place, else append. -/
def assocSet {α : Type} : List (String × α) → String → α → List (String × α)
  | [], key, v => [(key, v)]
  | (k, w) :: rest, key, v =>
    if k = key then (key, v) :: rest else (k, w) :: assocSet rest key v

/-- Remove the binding for `key` (`del d[k]` / `os.remove`). -/
def assocRemove {α : Type} (l : List (String × α)) (key : String) :
    List (String × α) :=
  l.filter (fun p => p.1 != key)

/-! ### SimpleCache (memory tier), `cache.py` lines 338-408 -/

/-- A memory-tier cache entry `(expires, value)`; `expires = 0` means
never expires, else an absolute time.  The value is stored pickled; the
codec is modelled as the identity. -/
abbrev Entry := ℚ × PyVal

structure SimpleCache where
  store : List (String × Entry)
  threshold : ℕ
  default_timeout : ℚ
deriving DecidableEq, Repr

/-- `(expires != 0 and expires <= now)`. -/
def entryExpired (expires : ℚ) (now : ℚ) : Bool :=
  expires != 0 && decide (expires ≤ now)

/-- The removal condition of the prune loop (line 363):
`(expires != 0 and expires <= now) or idx % 3 == 0`. -/
def pruneRemove (now : ℚ) (idx : ℕ) (e : Entry) : Bool :=
  entryExpired e.1 now || idx % 3 == 0

/-- The body of the prune loop of `SimpleCache._prune` (lines 361-366):
enumerate the store and drop every entry that is expired or whose
enumeration index is a multiple of 3. -/
def pruneStore (l : List (String × Entry)) (now : ℚ) : List (String × Entry) :=
  ((l.enum).filter (fun p => !(pruneRemove now p.1 p.2.2))).map Prod.snd

/-- `SimpleCache._prune` (lines 358-366): only acts when the store size
exceeds the threshold. -/
def SimpleCache.prune (c : SimpleCache) (now : ℚ) : SimpleCache :=
  if c.store.length > c.threshold then
    { c with store := pruneStore c.store now }
  else c

/-- `SimpleCache._get_expiration` (lines 368-373): `None` means the
default timeout; a positive timeout becomes `now + timeout`; `0` (and
negative values) are returned unchanged. -/
def SimpleCache.getExpiration (c : SimpleCache) (now : ℚ)
    (timeout : Option ℚ) : ℚ :=
  let t := timeout.getD c.default_timeout
  if 0 < t then now + t else t

/-- `SimpleCache.get` (lines 375-381): returns the unpickled value when
present and live, and `None` on `KeyError` or expiry (the Python
function returns `None` both for a miss and for an expired entry). -/
def SimpleCache.get (c : SimpleCache) (now : ℚ) (key : String) : PyVal :=
  match lookupKey c.store key with
  | Option.none => PyVal.none
  | some (expires, v) => if expires = 0 ∨ now < expires then v else PyVal.none

/-- `SimpleCache.set` (lines 383-388): compute the expiration, prune,
then overwrite unconditionally (always returns `True`). -/
def SimpleCache.set (c : SimpleCache) (now : ℚ) (key : String) (v : PyVal)
    (timeout : Option ℚ) : SimpleCache :=
  let expires := c.getExpiration now timeout
  let c := c.prune now
  { c with store := assocSet c.store key (expires, v) }

/-- `SimpleCache.add` (lines 390-398): compute the expiration, prune,
then insert only when the key is absent from the underlying mapping
(regardless of expiry); returns whether the insert happened. -/
def SimpleCache.add (c : SimpleCache) (now : ℚ) (key : String) (v : PyVal)
    (timeout : Option ℚ) : Bool × SimpleCache :=
  let expires := c.getExpiration now timeout
  let c := c.prune now
  if (lookupKey c.store key).isSome then (false, c)
  else (true, { c with store := c.store ++ [(key, (expires, v))] })

/-- `SimpleCache.has` (lines 403-408): same liveness check as `get`. -/
def SimpleCache.has (c : SimpleCache) (now : ℚ) (key : String) : Bool :=
  match lookupKey c.store key with
  | Option.none => false
  | some (expires, _) => expires == 0 || decide (now < expires)

/-! ### FileSystemCache (disk tier), `cache.py` lines 199-335 -/

/-- The content of one cache file: the pickled expiration followed by the
pickled payload.  `halfWritten` models a file whose expiration was
written but whose payload dump failed (a truncated pickle stream): the
first `pickle.load` succeeds, the second raises an `EOFError`, which the
handler at cache.py:278 (`IOError, OSError, pickle.PickleError`) does
not catch. -/
inductive FileData where
  | complete (expires : ℤ) (value : PyVal)
  | halfWritten (expires : ℤ)
deriving DecidableEq, Repr

/-- The expiration at the head of a cache file (readable even for a
half-written file). -/
def FileData.expires : FileData → ℤ
  | FileData.complete e _ => e
  | FileData.halfWritten e => e

/-- `FileSystemCache._get_filename` (lines 262-266) produces
`md5(key).hexdigest()`.  The digest is modelled as an opaque injective
keying (the source treats digest collisions as the same cache slot; that
accepted-collision risk is outside this model). -/
def getFilename (key : String) : String := key

/-- The disk tier.  `dir` is the cache directory in its fixed listing
order, one entry per regular cache file; transient `.__wz_cache`
temporary files are excluded from listings (`_list_dir`, lines 232-236)
and are not represented. -/
structure FileSystemCache where
  dir : List (String × FileData)
  threshold : ℕ
  default_timeout : ℚ
deriving DecidableEq, Repr

/-- `FileSystemCache._prune` (lines 238-251): when the directory holds
more than `threshold` files, walk the listing and remove each file that
is expired or at an enumeration index that is a multiple of 3 (the
expiration of a half-written file is still readable). -/
def FileSystemCache.prune (fc : FileSystemCache) (now : ℚ) : FileSystemCache :=
  if fc.dir.length > fc.threshold then
    { fc with dir :=
        ((fc.dir.enum.filter
          (fun p => !((p.2.2.expires != 0 && decide ((p.2.2.expires : ℚ) ≤ now))
                       || p.1 % 3 == 0))).map Prod.snd) }
  else fc

/-- The observable outcome of a disk-tier read: either a returned Python
value (`PyVal.none` for a miss), or an exception propagating out of
`get` — `cPickle` raises `EOFError` on the truncated payload of a live
half-written file, and the handler at cache.py:278 catches only
`IOError`, `OSError` and `pickle.PickleError`. -/
inductive FsRead where
  | val (v : PyVal)
  | raise
deriving DecidableEq, Repr

/-- `FileSystemCache.get` (lines 268-279): open the file, read the
expiration; when `pickle_time == 0 or pickle_time >= time.time()` load
and serve the payload — for a live half-written file this second load
raises an uncaught `EOFError` (`FsRead.raise`); on expiry remove the
file (before the payload is ever read) and report absent; a missing
file (`IOError`) reports absent.  Returns the outcome together with the
possibly mutated directory state. -/
def FileSystemCache.get (fc : FileSystemCache) (now : ℚ) (key : String) :
    FsRead × FileSystemCache :=
  match lookupKey fc.dir (getFilename key) with
  | Option.none => (FsRead.val PyVal.none, fc)
  | some (FileData.halfWritten e) =>
    if e = 0 ∨ now ≤ (e : ℚ) then (FsRead.raise, fc)
    else (FsRead.val PyVal.none,
          { fc with dir := assocRemove fc.dir (getFilename key) })
  | some (FileData.complete e v) =>
    if e = 0 ∨ now ≤ (e : ℚ) then (FsRead.val v, fc)
    else (FsRead.val PyVal.none,
          { fc with dir := assocRemove fc.dir (getFilename key) })

/-- `FileSystemCache.set` (lines 287-313): resolve the absolute
expiration (`int(time.time() + timeout)`, with `None` meaning the
default timeout and `0` kept as the never-expires sentinel), prune, then
write a temporary file and rename it over the target.  `dumpOk` models
whether pickling the payload succeeds; when it fails the source logs and
swallows the error and still renames the half-written temporary file
over the target, returning `True`.  The `mkstemp`/`rename`/`chmod`
calls themselves are modelled as succeeding (an `IOError`/`OSError`
there would return `False`; that path carries no claim content). -/
def FileSystemCache.set (fc : FileSystemCache) (now : ℚ) (key : String)
    (v : PyVal) (timeout : Option ℚ) (dumpOk : Bool) :
    Bool × FileSystemCache :=
  let expires : ℤ :=
    match timeout with
    | Option.none => ⌊now + fc.default_timeout⌋
    | some t => if t ≠ 0 then ⌊now + t⌋ else 0
  let fc := fc.prune now
  let data := if dumpOk then FileData.complete expires v
              else FileData.halfWritten expires
  (true, { fc with dir := assocSet fc.dir (getFilename key) data })

/-! ### TLCache orchestrator, `tlcache.py` -/

/-- `TLCache` state: the two tiers and the `_refresh_cache` flag.  The
reentrant lock serializes the decorated calls; since this embedding is
sequential, the lock has no observable content. -/
structure TLCache where
  simple : SimpleCache
  file : FileSystemCache
  refreshCache : Bool
deriving DecidableEq, Repr

/-- `TLCache.__init__` (lines 23-29): memory tier with the given
threshold and default timeout, disk tier with
`_DEFAULT_FILE_THRESHOLD = 100000` and `_DEFAULT_FILE_TIMEOUT = 86400`,
refresh flag off.  (The cache directory path is a collaborator concern
and is not represented.) -/
def TLCache.new (threshold : ℕ) (default_timeout : ℚ) : TLCache :=
  { simple := { store := [], threshold := threshold,
                default_timeout := default_timeout }
    file := { dir := [], threshold := 100000, default_timeout := 86400 }
    refreshCache := false }

/-- `TLCache.set` (lines 31-33): write the memory tier with the given
timeout, then the disk tier with **no** timeout argument (so the disk
tier always applies its own default timeout); payload pickling is
assumed to succeed here. -/
def TLCache.set (c : TLCache) (now : ℚ) (key : String) (v : PyVal)
    (timeout : Option ℚ) : Bool × TLCache :=
  let s := c.simple.set now key v timeout
  let (b, f) := c.file.set now key v Option.none true
  (b, { c with simple := s, file := f })

/-- Python 2 `min(timeout, 5)` from line 66: `timeout` may be `None`,
and in Python 2 `None` compares less than every number, so
`min(None, 5) = None`. -/
def py2MinTimeout (timeout : Option ℚ) (cap : ℚ) : Option ℚ :=
  match timeout with
  | Option.none => Option.none
  | some t => some (min t cap)

/-- `None if isinstance(rv, NotInCache) else rv` (line 69). -/
def translateOut (v : PyVal) : PyVal :=
  if v = PyVal.notInCache then PyVal.none else v

/-- `TLCache.with_refresh` (lines 39-46): a context manager that sets
`_refresh_cache` under the lock, runs the body, and clears the flag in a
`finally` clause, so the flag is cleared on both the normal and the
raising exit path.  `body` is the scope body as a state transformer
whose result (of arbitrary type `β`, e.g. an `Except`) encodes a normal
return or a raised exception; either way the `finally` runs. -/
def TLCache.withRefresh {β : Type} (c : TLCache)
    (body : TLCache → β × TLCache) : β × TLCache :=
  let r := body { c with refreshCache := true }
  (r.1, { r.2 with refreshCache := false })

/-- An exception propagating out of a memoized call: either the wrapped
function's own error re-raised by the bare `raise` at tlcache.py:64
(identity preserved), or the uncaught `EOFError` raised by
`_file_cache.get` on a live half-written file while evaluating the
recovery expression at tlcache.py:62 (it replaces the original
error). -/
inductive CallExn (ε : Type) where
  | fn (e : ε)
  | eof
deriving DecidableEq, Repr

/-- One invocation of a function memoized by `TLCache.cache`
(lines 48-71), at the already-derived cache key.  `fres` is the outcome
of calling the wrapped function `f(*args, **kwargs)`: `Except.ok v` for
a normal return of `v` (possibly `None`), `Except.error e` when `f`
raises `e`.  Returns the call's outcome (`CallExn` distinguishes the
re-raised original error from a propagating disk-read `EOFError`) and
the new cache state. -/
def TLCache.call {ε : Type} (c : TLCache) (now : ℚ) (key : String)
    (fres : Except ε PyVal) (timeout : Option ℚ) :
    Except (CallExn ε) PyVal × TLCache :=
  let rv := c.simple.get now key
  if rv = PyVal.none ∨ c.refreshCache = true then
    match fres with
    | Except.ok v =>
      let rv := if v ≠ PyVal.none then v else PyVal.notInCache
      let c := (c.set now key rv timeout).2
      (Except.ok (translateOut rv), c)
    | Except.error e =>
      -- rv = self._simple_cache.get(key) or self._file_cache.get(key)
      let m := c.simple.get now key
      if pyTruthy m then
        let c := (c.set now key m (py2MinTimeout timeout 5)).2
        (Except.ok (translateOut m), c)
      else
        let fr := c.file.get now key
        let c := { c with file := fr.2 }
        match fr.1 with
        | FsRead.raise => (Except.error CallExn.eof, c)
        | FsRead.val fv =>
          if fv = PyVal.none then (Except.error (CallExn.fn e), c)
          else
            let c := (c.set now key fv (py2MinTimeout timeout 5)).2
            (Except.ok (translateOut fv), c)
  else (Except.ok (translateOut rv), c)

/-! ### Concrete states used by witnesses and counterexamples -/

/-- A memory tier over threshold: four entries, threshold 2; at `now = 10`
entry `b` is expired, the others are live. -/
def sc6ex : SimpleCache :=
  { store := [("a", ((100 : ℚ), PyVal.int 1)), ("b", ((5 : ℚ), PyVal.int 2)),
              ("c", ((100 : ℚ), PyVal.int 3)), ("d", ((100 : ℚ), PyVal.int 4))]
    threshold := 2, default_timeout := 300 }

/-- A memory tier holding only an entry for `"k"` that is expired at
`now = 10` (expiration 5). -/
def sc10ex : SimpleCache :=
  { store := [("k", ((5 : ℚ), PyVal.int 7))], threshold := 1000,
    default_timeout := 300 }

/-- Orchestrator state for the C1 counterexample: the memory entry for
`"k"` is expired at `now = 10`, the disk tier holds a recoverable value
`7` (never-expiring file). -/
def c1ex : TLCache :=
  { simple := sc10ex
    file := { dir := [("k", FileData.complete 0 (PyVal.int 7))],
              threshold := 100000, default_timeout := 86400 }
    refreshCache := false }

/-- Orchestrator state for the C2 counterexample: forced refresh is
active, the memory tier holds the live falsy payload `0` for `"k"`, the
disk tier is empty. -/
def c2ex : TLCache :=
  { simple := { store := [("k", ((100 : ℚ), PyVal.int 0))], threshold := 1000,
                default_timeout := 300 }
    file := { dir := [], threshold := 100000, default_timeout := 86400 }
    refreshCache := true }

/-- An empty disk tier for the C3 counterexample. -/
def fc3ex : FileSystemCache :=
  { dir := [], threshold := 5, default_timeout := 300 }

/-- An empty memory tier for the C3 witness. -/
def sc3ex : SimpleCache :=
  { store := [], threshold := 5, default_timeout := 300 }

/-- Disk tier for the C7 theorem: the target file for `"k"` holds a good
value before the failing `set`. -/
def fc7ex : FileSystemCache :=
  { dir := [("k", FileData.complete 50 (PyVal.int 1))], threshold := 5,
    default_timeout := 300 }

/-- Orchestrator state with forced refresh active and a live truthy
memory value for `"k"` (used for the memory-recovery path of C1 and for
C8). -/
def c1rex : TLCache :=
  { simple := { store := [("k", ((100 : ℚ), PyVal.int 7))], threshold := 1000,
                default_timeout := 300 }
    file := { dir := [], threshold := 100000, default_timeout := 86400 }
    refreshCache := true }

/-- Orchestrator state with an empty memory tier and a live falsy disk
value `0` for `"k"` (used for the C2 witness: a falsy disk payload is
still recovered). -/
def c2wex : TLCache :=
  { simple := { store := [], threshold := 1000, default_timeout := 300 }
    file := { dir := [("k", FileData.complete 0 (PyVal.int 0))],
              threshold := 100000, default_timeout := 86400 }
    refreshCache := false }

/-- Orchestrator state with refresh off and a live memory value for
`"k"` (used for the out-of-scope part of C8). -/
def c8ex : TLCache :=
  { simple := { store := [("k", ((100 : ℚ), PyVal.int 1))], threshold := 1000,
                default_timeout := 300 }
    file := { dir := [], threshold := 100000, default_timeout := 86400 }
    refreshCache := false }

/-- A freshly constructed orchestrator (used for the C9 witness). -/
def c9ex : TLCache := TLCache.new 1000 300

/-! ## Helper lemmas -/

theorem lookupKey_assocSet_self {α : Type} (l : List (String × α)) (key : String)
    (v : α) : lookupKey (assocSet l key v) key = some v := by
  induction l with
  | nil => simp [assocSet, lookupKey]
  | cons p rest ih =>
    obtain ⟨k, w⟩ := p
    by_cases h : k = key
    · simp [assocSet, h, lookupKey]
    · simp [assocSet, h, lookupKey, ih]

theorem lookupKey_assocSet_ne {α : Type} (l : List (String × α)) (key k : String)
    (v : α) (h : k ≠ key) :
    lookupKey (assocSet l key v) k = lookupKey l k := by
  have h' : key ≠ k := Ne.symm h
  induction l with
  | nil => simp [assocSet, lookupKey, h']
  | cons p rest ih =>
    obtain ⟨k', w⟩ := p
    by_cases hk : k' = key
    · subst hk
      simp [assocSet, lookupKey, h', Ne.symm h']
    · simp [assocSet, hk, lookupKey, ih]

theorem lookupKey_append_ne {α : Type} (l : List (String × α)) (key k : String)
    (v : α) (h : k ≠ key) :
    lookupKey (l ++ [(key, v)]) k = lookupKey l k := by
  induction l with
  | nil => simp [lookupKey, Ne.symm h]
  | cons p rest ih =>
    obtain ⟨k', w⟩ := p
    by_cases hk : k' = k <;> simp [lookupKey, hk, ih]

theorem lookupKey_eq_some_of_mem {α : Type} {l : List (String × α)} {k : String}
    {v : α} (hmem : (k, v) ∈ l) (hnd : (l.map Prod.fst).Nodup) :
    lookupKey l k = some v := by
  induction l with
  | nil => cases hmem
  | cons p rest ih =>
    obtain ⟨k', w⟩ := p
    rw [List.map_cons] at hnd
    have hnd' := List.nodup_cons.mp hnd
    rcases List.mem_cons.mp hmem with heq | hmem'
    · cases heq
      simp [lookupKey]
    · have hk : k' ≠ k := by
        intro hh
        subst hh
        exact hnd'.1 (List.mem_map.mpr ⟨(k', v), hmem', rfl⟩)
      simpa [lookupKey, hk] using ih hmem' hnd'.2

theorem lookupKey_eq_none_of_not_mem {α : Type} {l : List (String × α)}
    {k : String} (h : k ∉ l.map Prod.fst) :
    lookupKey l k = Option.none := by
  induction l with
  | nil => rfl
  | cons p rest ih =>
    obtain ⟨k', w⟩ := p
    rw [List.map_cons] at h
    have hk : k' ≠ k := by
      intro hh
      subst hh
      exact h (List.mem_cons_self _ _)
    have h2 : k ∉ rest.map Prod.fst := fun hm => h (List.mem_cons_of_mem _ hm)
    simpa [lookupKey, hk] using ih h2

theorem pruneFrom_entries_sublist (now : ℚ) (l : List (String × Entry)) (n : ℕ) :
    (((List.enumFrom n l).filter
        (fun p => !(pruneRemove now p.1 p.2.2))).map Prod.snd).Sublist l := by
  have h2 := (List.filter_sublist (p := fun p => !(pruneRemove now p.1 p.2.2))
    (List.enumFrom n l)).map Prod.snd
  rwa [List.enumFrom_map_snd] at h2

theorem pruneFrom_kept (now : ℚ) :
    ∀ (l : List (String × Entry)) (n i : ℕ) (hi : i < l.length),
      pruneRemove now (n + i) l[i].2 = false →
      l[i] ∈ ((List.enumFrom n l).filter
        (fun p => !(pruneRemove now p.1 p.2.2))).map Prod.snd := by
  intro l
  induction l with
  | nil =>
    intro n i hi
    exact absurd hi (by simp)
  | cons x xs ih =>
    intro n i hi hkeep
    rw [List.enumFrom_cons, List.filter_cons]
    cases i with
    | zero =>
      have hx : (!(pruneRemove now n x.2)) = true := by
        simpa using hkeep
      rw [if_pos hx, List.map_cons]
      exact List.mem_cons_self _ _
    | succ j =>
      have hj : j < xs.length := by simpa using hi
      have harith : n + (j + 1) = (n + 1) + j := by omega
      rw [harith, List.getElem_cons_succ] at hkeep
      have hrec := ih (n + 1) j hj hkeep
      rw [List.getElem_cons_succ]
      by_cases hx : (!(pruneRemove now n x.2)) = true
      · rw [if_pos hx, List.map_cons]
        exact List.mem_cons_of_mem _ hrec
      · rw [if_neg hx]
        exact hrec

theorem pruneFrom_removed (now : ℚ) :
    ∀ (l : List (String × Entry)) (n i : ℕ) (hi : i < l.length),
      (l.map Prod.fst).Nodup →
      pruneRemove now (n + i) l[i].2 = true →
      l[i].1 ∉ (((List.enumFrom n l).filter
        (fun p => !(pruneRemove now p.1 p.2.2))).map Prod.snd).map Prod.fst := by
  intro l
  induction l with
  | nil =>
    intro n i hi
    exact absurd hi (by simp)
  | cons x xs ih =>
    intro n i hi hnd hrem
    rw [List.map_cons] at hnd
    have hnd' := List.nodup_cons.mp hnd
    rw [List.enumFrom_cons, List.filter_cons]
    cases i with
    | zero =>
      have hrem' : pruneRemove now n x.2 = true := by
        simpa using hrem
      have hx : ¬ ((!(pruneRemove now n x.2)) = true) := by
        simp [hrem']
      rw [if_neg hx, List.getElem_cons_zero]
      intro hmem
      have hsub := ((pruneFrom_entries_sublist now xs (n + 1)).map Prod.fst).subset
      exact hnd'.1 (hsub hmem)
    | succ j =>
      have hj : j < xs.length := by simpa using hi
      have harith : n + (j + 1) = (n + 1) + j := by omega
      rw [harith, List.getElem_cons_succ] at hrem
      have hrec := ih (n + 1) j hj hnd'.2 hrem
      rw [List.getElem_cons_succ]
      by_cases hx : (!(pruneRemove now n x.2)) = true
      · rw [if_pos hx, List.map_cons, List.map_cons]
        intro hmem
        rcases List.mem_cons.mp hmem with heq | hmem'
        · have hjmem : xs[j].1 ∈ xs.map Prod.fst :=
            List.mem_map.mpr ⟨xs[j], List.getElem_mem _, rfl⟩
          exact hnd'.1 (heq ▸ hjmem)
        · exact hrec hmem'
      · rw [if_neg hx]
        exact hrec

theorem pruneStore_eq_pruneFrom (l : List (String × Entry)) (now : ℚ) :
    pruneStore l now = ((List.enumFrom 0 l).filter
      (fun p => !(pruneRemove now p.1 p.2.2))).map Prod.snd := rfl

theorem pruneStore_lookup_removed (now : ℚ) (l : List (String × Entry)) (i : ℕ)
    (hi : i < l.length) (hnd : (l.map Prod.fst).Nodup)
    (hrem : pruneRemove now i l[i].2 = true) :
    lookupKey (pruneStore l now) l[i].1 = Option.none := by
  apply lookupKey_eq_none_of_not_mem
  have h := pruneFrom_removed now l 0 i hi hnd (by simpa using hrem)
  rw [pruneStore_eq_pruneFrom]
  exact h

theorem pruneStore_keys_nodup (now : ℚ) (l : List (String × Entry))
    (hnd : (l.map Prod.fst).Nodup) :
    ((pruneStore l now).map Prod.fst).Nodup := by
  rw [pruneStore_eq_pruneFrom]
  exact hnd.sublist ((pruneFrom_entries_sublist now l 0).map Prod.fst)

theorem pruneStore_lookup_kept (now : ℚ) (l : List (String × Entry)) (i : ℕ)
    (hi : i < l.length) (hnd : (l.map Prod.fst).Nodup)
    (hkeep : pruneRemove now i l[i].2 = false) :
    lookupKey (pruneStore l now) l[i].1 = some l[i].2 := by
  apply lookupKey_eq_some_of_mem
  · rw [Prod.mk.eta, pruneStore_eq_pruneFrom]
    exact pruneFrom_kept now l 0 i hi (by simpa using hkeep)
  · exact pruneStore_keys_nodup now l hnd

theorem fileGet_preserves (fc : FileSystemCache) (now : ℚ) (key : String) :
    ((fc.get now key).2).threshold = fc.threshold
    ∧ ((fc.get now key).2).default_timeout = fc.default_timeout := by
  unfold FileSystemCache.get
  rcases h : lookupKey fc.dir (getFilename key) with _ | fd
  · exact ⟨rfl, rfl⟩
  · cases fd with
    | complete e v =>
      dsimp only
      by_cases hc : e = 0 ∨ now ≤ (e : ℚ)
      · rw [if_pos hc]
        exact ⟨rfl, rfl⟩
      · rw [if_neg hc]
        exact ⟨rfl, rfl⟩
    | halfWritten e =>
      dsimp only
      by_cases hc : e = 0 ∨ now ≤ (e : ℚ)
      · rw [if_pos hc]
        exact ⟨rfl, rfl⟩
      · rw [if_neg hc]
        exact ⟨rfl, rfl⟩

theorem scSet_lookup (sc : SimpleCache) (now : ℚ) (key : String) (v : PyVal)
    (t : Option ℚ) :
    lookupKey ((sc.set now key v t).store) key
        = some (sc.getExpiration now t, v) := by
  simp [SimpleCache.set, lookupKey_assocSet_self]

theorem fsSet_lookup (fc : FileSystemCache) (now : ℚ) (key : String)
    (v : PyVal) :
    lookupKey ((fc.set now key v Option.none true).2.dir) (getFilename key)
        = some (FileData.complete ⌊now + fc.default_timeout⌋ v) := by
  simp [FileSystemCache.set, lookupKey_assocSet_self]

theorem call_hit {ε : Type} (c : TLCache) (now : ℚ) (key : String)
    (fres : Except ε PyVal) (t : Option ℚ)
    (hrefresh : c.refreshCache = false)
    (hlive : c.simple.get now key ≠ PyVal.none) :
    c.call now key fres t
      = (Except.ok (translateOut (c.simple.get now key)), c) := by
  unfold TLCache.call
  rw [if_neg]
  rintro (h | h)
  · exact hlive h
  · rw [hrefresh] at h
    cases h

theorem call_ok_branch {ε : Type} (c : TLCache) (now : ℚ) (key : String)
    (v : PyVal) (t : Option ℚ)
    (hbranch : c.simple.get now key = PyVal.none ∨ c.refreshCache = true) :
    c.call now key (Except.ok (ε := ε) v) t
      = (Except.ok (translateOut (if v ≠ PyVal.none then v
            else PyVal.notInCache)),
         (c.set now key (if v ≠ PyVal.none then v else PyVal.notInCache)
            t).2) := by
  unfold TLCache.call
  rw [if_pos hbranch]

theorem call_error_mem {ε : Type} (c : TLCache) (now : ℚ) (key : String)
    (e : ε) (t : Option ℚ)
    (hbranch : c.simple.get now key = PyVal.none ∨ c.refreshCache = true)
    (htruthy : pyTruthy (c.simple.get now key) = true) :
    c.call now key (Except.error e) t
      = (Except.ok (translateOut (c.simple.get now key)),
         (c.set now key (c.simple.get now key) (py2MinTimeout t 5)).2) := by
  unfold TLCache.call
  rw [if_pos hbranch]
  dsimp only
  rw [if_pos htruthy]

theorem call_error_file {ε : Type} (c : TLCache) (now : ℚ) (key : String)
    (e : ε) (t : Option ℚ) (fv : PyVal)
    (hbranch : c.simple.get now key = PyVal.none ∨ c.refreshCache = true)
    (hfalsy : pyTruthy (c.simple.get now key) = false)
    (hfv : (c.file.get now key).1 = FsRead.val fv)
    (hfvne : fv ≠ PyVal.none) :
    c.call now key (Except.error e) t
      = (Except.ok (translateOut fv),
         ({ c with file := (c.file.get now key).2 }.set now key
            fv (py2MinTimeout t 5)).2) := by
  unfold TLCache.call
  rw [if_pos hbranch]
  dsimp only
  rw [if_neg (by rw [hfalsy]; exact Bool.false_ne_true), hfv]
  dsimp only
  rw [if_neg hfvne]

theorem call_error_propagate {ε : Type} (c : TLCache) (now : ℚ) (key : String)
    (e : ε) (t : Option ℚ)
    (hbranch : c.simple.get now key = PyVal.none ∨ c.refreshCache = true)
    (hfalsy : pyTruthy (c.simple.get now key) = false)
    (hfv : (c.file.get now key).1 = FsRead.val PyVal.none) :
    c.call now key (Except.error e) t
      = (Except.error (CallExn.fn e),
         { c with file := (c.file.get now key).2 }) := by
  unfold TLCache.call
  rw [if_pos hbranch]
  dsimp only
  rw [if_neg (by rw [hfalsy]; exact Bool.false_ne_true), hfv]
  dsimp only
  rw [if_pos rfl]

theorem call_error_raise {ε : Type} (c : TLCache) (now : ℚ) (key : String)
    (e : ε) (t : Option ℚ)
    (hbranch : c.simple.get now key = PyVal.none ∨ c.refreshCache = true)
    (hfalsy : pyTruthy (c.simple.get now key) = false)
    (hfv : (c.file.get now key).1 = FsRead.raise) :
    c.call now key (Except.error e) t
      = (Except.error CallExn.eof,
         { c with file := (c.file.get now key).2 }) := by
  unfold TLCache.call
  rw [if_pos hbranch]
  dsimp only
  rw [if_neg (by rw [hfalsy]; exact Bool.false_ne_true), hfv]

/-! ## Claim theorems -/

/-- Claim C6: whenever `set` or `add` on the memory tier finds the store
size above the threshold, one prune pass runs before the new entry is
inserted, removing exactly the entries that are expired (non-zero
expiration ≤ now) or sit at an enumeration position that is a multiple
of 3: after the operation, a pre-existing entry at position `i` (for a
key other than the one being written) is gone iff it was expired or
`i % 3 = 0`, and is otherwise untouched. -/
theorem spec_C6 (c : SimpleCache) (now : ℚ) (key : String) (v : PyVal)
    (t : Option ℚ) (i : ℕ) (hi : i < c.store.length)
    (hnd : (c.store.map Prod.fst).Nodup)
    (hlen : c.store.length > c.threshold)
    (hk : c.store[i].1 ≠ key) :
    (((c.store[i].2.1 ≠ 0 ∧ c.store[i].2.1 ≤ now) ∨ i % 3 = 0) →
      lookupKey ((c.set now key v t).store) c.store[i].1 = Option.none
      ∧ lookupKey ((c.add now key v t).2.store) c.store[i].1 = Option.none)
    ∧ (¬ ((c.store[i].2.1 ≠ 0 ∧ c.store[i].2.1 ≤ now) ∨ i % 3 = 0) →
      lookupKey ((c.set now key v t).store) c.store[i].1 = some c.store[i].2
      ∧ lookupKey ((c.add now key v t).2.store) c.store[i].1
          = some c.store[i].2) := by
  have hcond : ∀ b : Bool, pruneRemove now i c.store[i].2 = b ↔
      ((((c.store[i].2.1 ≠ 0 ∧ c.store[i].2.1 ≤ now) ∨ i % 3 = 0)) ↔ b = true) := by
    intro b
    cases b <;>
      simp [pruneRemove, entryExpired, Bool.or_eq_true, Bool.and_eq_true,
        bne_iff_ne, decide_eq_true_iff]
  have hset : (c.set now key v t).store
      = assocSet (pruneStore c.store now) key (c.getExpiration now t, v) := by
    simp [SimpleCache.set, SimpleCache.prune, hlen]
  have haddstore : lookupKey ((c.add now key v t).2.store) c.store[i].1
      = lookupKey (pruneStore c.store now) c.store[i].1 := by
    simp only [SimpleCache.add, SimpleCache.prune, if_pos hlen]
    by_cases hs : (lookupKey (pruneStore c.store now) key).isSome
    · simp [hs]
    · simp [hs, lookupKey_append_ne _ _ _ _ hk]
  constructor
  · intro hrem
    have hb : pruneRemove now i c.store[i].2 = true := by
      rw [hcond]
      exact ⟨fun _ => rfl, fun _ => hrem⟩
    have hlook := pruneStore_lookup_removed now c.store i hi hnd hb
    refine ⟨?_, ?_⟩
    · rw [hset, lookupKey_assocSet_ne _ _ _ _ hk, hlook]
    · rw [haddstore, hlook]
  · intro hrem
    have hb : pruneRemove now i c.store[i].2 = false := by
      cases hpr : pruneRemove now i c.store[i].2
      · rfl
      · exact absurd (((hcond true).mp hpr).mpr rfl) hrem
    have hlook := pruneStore_lookup_kept now c.store i hi hnd hb
    refine ⟨?_, ?_⟩
    · rw [hset, lookupKey_assocSet_ne _ _ _ _ hk, hlook]
    · rw [haddstore, hlook]

/-- Witness for C6 on `sc6ex` (four entries, threshold 2, `now = 10`):
the expired entry `b` at position 1 is removed, the live entry `c` at
position 2 survives a `set` of the fresh key `e`. -/
theorem spec_C6_witness :
    lookupKey ((sc6ex.set 10 "e" (PyVal.int 5) (some 10)).store) "b"
        = Option.none
    ∧ lookupKey ((sc6ex.set 10 "e" (PyVal.int 5) (some 10)).store) "c"
        = some ((100 : ℚ), PyVal.int 3) := by
  refine ⟨?_, ?_⟩
  · exact ((spec_C6 sc6ex 10 "e" (PyVal.int 5) (some 10) 1 (by decide)
      (by decide) (by decide) (by decide)).1 (by decide)).1
  · exact ((spec_C6 sc6ex 10 "e" (PyVal.int 5) (some 10) 2 (by decide)
      (by decide) (by decide) (by decide)).2 (by decide)).1

/-- Claim C10 (implicit): `add` on the memory tier returns `False` and
leaves the stored entry unchanged whenever the key is present in the
underlying mapping after the prune step, even when that entry is already
expired — in which case `get` and `has` still report absent for the
key. -/
theorem spec_C10 (c : SimpleCache) (now : ℚ) (key : String) (v : PyVal)
    (t : Option ℚ) (e₀ : ℚ) (w : PyVal)
    (hpres : lookupKey ((c.prune now).store) key = some (e₀, w)) :
    (c.add now key v t).1 = false
    ∧ (c.add now key v t).2.store = (c.prune now).store
    ∧ lookupKey ((c.add now key v t).2.store) key = some (e₀, w)
    ∧ (e₀ ≠ 0 ∧ e₀ ≤ now →
        (c.add now key v t).2.get now key = PyVal.none
        ∧ (c.add now key v t).2.has now key = false) := by
  have hsome : (lookupKey ((c.prune now).store) key).isSome := by
    rw [hpres]
    rfl
  have hadd : c.add now key v t = (false, c.prune now) := by
    simp [SimpleCache.add, hsome]
  refine ⟨by rw [hadd], by rw [hadd], by rw [hadd]; exact hpres, ?_⟩
  rintro ⟨hne, hle⟩
  have hnotlive : ¬ (e₀ = 0 ∨ now < e₀) := by
    rintro (h0 | hlt)
    · exact hne h0
    · exact absurd hle (not_le.mpr hlt)
  constructor
  · rw [hadd]
    simp only [SimpleCache.get, hpres]
    rw [if_neg hnotlive]
  · rw [hadd]
    simp only [SimpleCache.has, hpres]
    have h1 : (e₀ == 0) = false := by simpa using hne
    have h2 : (decide (now < e₀)) = false := by simpa using not_lt.mpr hle
    rw [h1, h2]
    rfl

/-- Witness for C10 on `sc10ex`: the entry for `"k"` expired at
`now = 10`, so `get`/`has` report absent, yet `add` returns `False` and
leaves the expired entry in place. -/
theorem spec_C10_witness :
    (sc10ex.add 10 "k" (PyVal.int 9) (some 10)).1 = false
    ∧ lookupKey ((sc10ex.add 10 "k" (PyVal.int 9) (some 10)).2.store) "k"
        = some ((5 : ℚ), PyVal.int 7)
    ∧ (sc10ex.add 10 "k" (PyVal.int 9) (some 10)).2.get 10 "k" = PyVal.none
    ∧ (sc10ex.add 10 "k" (PyVal.int 9) (some 10)).2.has 10 "k" = false := by
  have h := spec_C10 sc10ex 10 "k" (PyVal.int 9) (some 10) 5 (PyVal.int 7)
    (by decide)
  exact ⟨h.1, h.2.2.1, (h.2.2.2 (by decide)).1, (h.2.2.2 (by decide)).2⟩

/-- Counterexample to claim C3 as stated: on the disk tier a value set
at `t0 = 1/2` with timeout `T = 10` is already absent at `now = 51/5`,
i.e. `9.7 < T` seconds after insertion, because `set` truncates the
absolute expiration with `int()` (here to 10) and `get` compares the
truncated value against `now`. -/
theorem spec_C3_counterexample :
    ((((fc3ex.set (1 / 2) "k" (PyVal.int 7) (some 10) true).2).get
        (51 / 5) "k").1 = FsRead.val PyVal.none)
    ∧ (51 / 5 - (1 / 2 : ℚ) < 10)
    ∧ PyVal.int 7 ≠ PyVal.none := by
  have hf : ⌊(1 / 2 : ℚ) + 10⌋ = (10 : ℤ) := by
    rw [Int.floor_eq_iff]
    norm_num
  refine ⟨?_, by norm_num, by decide⟩
  norm_num [fc3ex, FileSystemCache.set, FileSystemCache.prune,
    FileSystemCache.get, getFilename, assocSet, lookupKey, hf]

/-- Claim C3, amended: for a value stored with timeout `T > 0` (at a
nonnegative wall-clock time `t0`, with `t0 + T ≥ 1` so the truncated
disk expiration is nonzero), the **memory** tier behaves exactly as
claimed — `get` returns the value at every time `< t0 + T` and reports
absent at every time `≥ t0 + T` — while the **disk** tier truncates the
expiration to `⌊t0 + T⌋` whole seconds and serves the value at every
time `≤ ⌊t0 + T⌋` (including the expiration instant itself) and reports
absent at every later time. -/
theorem spec_C3 (c : SimpleCache) (fc : FileSystemCache) (t0 T now : ℚ)
    (key : String) (v : PyVal) (hT : 0 < T) (h0 : 0 ≤ t0)
    (h1 : 1 ≤ t0 + T) :
    (now < t0 + T → (c.set t0 key v (some T)).get now key = v)
    ∧ (t0 + T ≤ now → (c.set t0 key v (some T)).get now key = PyVal.none)
    ∧ (now ≤ (⌊t0 + T⌋ : ℚ) →
        (((fc.set t0 key v (some T) true).2).get now key).1 = FsRead.val v)
    ∧ ((⌊t0 + T⌋ : ℚ) < now →
        (((fc.set t0 key v (some T) true).2).get now key).1
          = FsRead.val PyVal.none) := by
  have hexpne : t0 + T ≠ 0 := by positivity
  have hstore : (c.set t0 key v (some T)).store
      = assocSet ((c.prune t0).store) key (t0 + T, v) := by
    simp [SimpleCache.set, SimpleCache.getExpiration, hT]
  have hget : ∀ w : ℚ, (c.set t0 key v (some T)).get w key
      = if t0 + T = 0 ∨ w < t0 + T then v else PyVal.none := by
    intro w
    simp [SimpleCache.get, hstore, lookupKey_assocSet_self]
  have hfloor : (⌊t0 + T⌋ : ℤ) ≠ 0 := by
    have : (1 : ℤ) ≤ ⌊t0 + T⌋ := by
      rw [Int.le_floor]
      exact_mod_cast h1
    omega
  have hfdir : ((fc.set t0 key v (some T) true).2).dir
      = assocSet ((fc.prune t0).dir) (getFilename key)
          (FileData.complete ⌊t0 + T⌋ v) := by
    simp [FileSystemCache.set, ne_of_gt hT]
  have hfget : ∀ w : ℚ, (((fc.set t0 key v (some T) true).2).get w key).1
      = if (⌊t0 + T⌋ : ℤ) = 0 ∨ w ≤ (⌊t0 + T⌋ : ℚ) then FsRead.val v
        else FsRead.val PyVal.none := by
    intro w
    simp only [FileSystemCache.get, hfdir, lookupKey_assocSet_self]
    by_cases hc : (⌊t0 + T⌋ : ℤ) = 0 ∨ w ≤ (⌊t0 + T⌋ : ℚ)
    · rw [if_pos hc, if_pos hc]
    · rw [if_neg hc, if_neg hc]
  refine ⟨?_, ?_, ?_, ?_⟩
  · intro hlt
    rw [hget, if_pos (Or.inr hlt)]
  · intro hge
    rw [hget, if_neg ?_]
    rintro (h0' | hlt)
    · exact hexpne h0'
    · exact absurd hge (not_le.mpr hlt)
  · intro hle
    rw [hfget, if_pos (Or.inr hle)]
  · intro hgt
    rw [hfget, if_neg ?_]
    rintro (h0' | hle)
    · exact hfloor h0'
    · exact absurd hgt (not_lt.mpr hle)

/-- Witness for the amended C3 at `t0 = 0`, `T = 10`: the memory tier
serves the value at `now = 3` and masks it at `now = 12`; the disk
tier serves it at `now = 10` (the truncated expiration instant) and
masks it at `now = 11`. -/
theorem spec_C3_witness :
    ((sc3ex.set 0 "k" (PyVal.int 7) (some 10)).get 3 "k" = PyVal.int 7)
    ∧ ((sc3ex.set 0 "k" (PyVal.int 7) (some 10)).get 12 "k" = PyVal.none)
    ∧ ((((fc3ex.set 0 "k" (PyVal.int 7) (some 10) true).2).get 10 "k").1
        = FsRead.val (PyVal.int 7))
    ∧ ((((fc3ex.set 0 "k" (PyVal.int 7) (some 10) true).2).get 11 "k").1
        = FsRead.val PyVal.none) := by
  refine ⟨?_, ?_, ?_, ?_⟩
  · exact (spec_C3 sc3ex fc3ex 0 10 3 "k" (PyVal.int 7) (by norm_num)
      (by norm_num) (by norm_num)).1 (by norm_num)
  · exact (spec_C3 sc3ex fc3ex 0 10 12 "k" (PyVal.int 7) (by norm_num)
      (by norm_num) (by norm_num)).2.1 (by norm_num)
  · exact (spec_C3 sc3ex fc3ex 0 10 10 "k" (PyVal.int 7) (by norm_num)
      (by norm_num) (by norm_num)).2.2.1 (by norm_num)
  · exact (spec_C3 sc3ex fc3ex 0 10 11 "k" (PyVal.int 7) (by norm_num)
      (by norm_num) (by norm_num)).2.2.2 (by norm_num)

/-- Counterexample to claim C1 as stated: in `c1ex` the memory entry for
`"k"` is expired at `now = 10` and the disk tier recovers `7` after the
wrapped function raises, with the timeout left unspecified (`None`).
The claim demands republication to both tiers with TTL
`min(requested timeout, 5)`; instead the memory tier is republished with
its default timeout (expiration `310 = 10 + 300`) and the disk tier
with its default timeout (expiration `86410 = ⌊10 + 86400⌋`), both far
beyond the degraded ceiling `now + 5 = 15`. -/
theorem spec_C1_counterexample :
    (c1ex.call (ε := Unit) 10 "k" (Except.error ()) Option.none).1
        = Except.ok (PyVal.int 7)
    ∧ lookupKey ((c1ex.call (ε := Unit) 10 "k" (Except.error ())
        Option.none).2.simple.store) "k" = some ((310 : ℚ), PyVal.int 7)
    ∧ lookupKey ((c1ex.call (ε := Unit) 10 "k" (Except.error ())
        Option.none).2.file.dir) "k"
        = some (FileData.complete 86410 (PyVal.int 7))
    ∧ ¬ ((310 : ℚ) ≤ 10 + 5) ∧ ¬ ((86410 : ℚ) ≤ 10 + 5) := by
  have hmiss : c1ex.simple.get 10 "k" = PyVal.none := by
    norm_num [c1ex, sc10ex, SimpleCache.get, lookupKey]
  have hfv : c1ex.file.get 10 "k" = (FsRead.val (PyVal.int 7), c1ex.file) := by
    norm_num [c1ex, FileSystemCache.get, lookupKey, getFilename]
  have hcall := call_error_file c1ex 10 "k" () Option.none (PyVal.int 7)
    (Or.inl hmiss) (by rw [hmiss]; rfl) (by rw [hfv]) (by decide)
  refine ⟨?_, ?_, ?_, by norm_num, by norm_num⟩
  · rw [hcall]
    rfl
  · rw [hcall]
    show lookupKey ((c1ex.simple.set 10 "k" (PyVal.int 7)
        Option.none).store) "k" = some ((310 : ℚ), PyVal.int 7)
    rw [scSet_lookup]
    norm_num [c1ex, sc10ex, SimpleCache.getExpiration]
  · rw [hcall]
    show lookupKey ((c1ex.file.set 10 "k" (PyVal.int 7)
        Option.none true).2.dir) (getFilename "k")
        = some (FileData.complete 86410 (PyVal.int 7))
    rw [fsSet_lookup]
    norm_num [c1ex]

/-- Claim C1, amended: when the wrapped function raises and a stale
value is recovered, the orchestrator republishes it through `set` with
Python-2 `min(timeout, 5)`.  When a timeout `T > 0` **was specified**,
the memory tier is republished with TTL `min(T, 5)` (which does bound
the degraded value's survival in the memory tier), but the disk tier is
always republished with the disk tier's own default TTL, not the
shortened one; when the timeout was left unspecified, `min(None, 5)` is
`None` in Python 2 and both tiers fall back to their default TTLs (see
the counterexample).  This holds on both recovery paths: recovery from
the disk tier (memory value unrecoverable) and recovery of a truthy
memory value (under forced refresh). -/
theorem spec_C1 {ε₁ ε₂ : Type} (c₁ c₂ : TLCache) (now₁ now₂ : ℚ)
    (key₁ key₂ : String) (e₁ : ε₁) (e₂ : ε₂) (t₁ t₂ : ℚ) (fv : PyVal)
    (hmiss : c₁.simple.get now₁ key₁ = PyVal.none)
    (hfv : (c₁.file.get now₁ key₁).1 = FsRead.val fv)
    (hfvne : fv ≠ PyVal.none)
    (ht₁ : 0 < t₁)
    (hrefresh : c₂.refreshCache = true)
    (htruthy : pyTruthy (c₂.simple.get now₂ key₂) = true)
    (ht₂ : 0 < t₂) :
    ((c₁.call now₁ key₁ (Except.error e₁) (some t₁)).1
        = Except.ok (translateOut fv)
      ∧ lookupKey ((c₁.call now₁ key₁ (Except.error e₁)
          (some t₁)).2.simple.store) key₁
          = some (now₁ + min t₁ 5, fv)
      ∧ lookupKey ((c₁.call now₁ key₁ (Except.error e₁)
          (some t₁)).2.file.dir) (getFilename key₁)
          = some (FileData.complete ⌊now₁ + c₁.file.default_timeout⌋ fv))
    ∧ ((c₂.call now₂ key₂ (Except.error e₂) (some t₂)).1
        = Except.ok (translateOut (c₂.simple.get now₂ key₂))
      ∧ lookupKey ((c₂.call now₂ key₂ (Except.error e₂)
          (some t₂)).2.simple.store) key₂
          = some (now₂ + min t₂ 5, c₂.simple.get now₂ key₂)
      ∧ lookupKey ((c₂.call now₂ key₂ (Except.error e₂)
          (some t₂)).2.file.dir) (getFilename key₂)
          = some (FileData.complete ⌊now₂ + c₂.file.default_timeout⌋
              (c₂.simple.get now₂ key₂))) := by
  have h5 : (0 : ℚ) < 5 := by norm_num
  constructor
  · have hcall := call_error_file c₁ now₁ key₁ e₁ (some t₁) fv
      (Or.inl hmiss) (by rw [hmiss]; rfl) hfv hfvne
    have hexp : SimpleCache.getExpiration c₁.simple now₁ (some (min t₁ 5))
        = now₁ + min t₁ 5 := by
      simp [SimpleCache.getExpiration, lt_min ht₁ h5]
    refine ⟨by rw [hcall], ?_, ?_⟩
    · rw [hcall]
      show lookupKey ((c₁.simple.set now₁ key₁ fv
          (some (min t₁ 5))).store) key₁
          = some (now₁ + min t₁ 5, fv)
      rw [scSet_lookup, hexp]
    · rw [hcall]
      show lookupKey (((c₁.file.get now₁ key₁).2.set now₁ key₁
          fv Option.none true).2.dir) (getFilename key₁)
          = some (FileData.complete ⌊now₁ + c₁.file.default_timeout⌋ fv)
      rw [fsSet_lookup, (fileGet_preserves c₁.file now₁ key₁).2]
  · have hcall := call_error_mem c₂ now₂ key₂ e₂ (some t₂) (Or.inr hrefresh)
      htruthy
    have hexp : SimpleCache.getExpiration c₂.simple now₂ (some (min t₂ 5))
        = now₂ + min t₂ 5 := by
      simp [SimpleCache.getExpiration, lt_min ht₂ h5]
    refine ⟨by rw [hcall], ?_, ?_⟩
    · rw [hcall]
      show lookupKey ((c₂.simple.set now₂ key₂ (c₂.simple.get now₂ key₂)
          (some (min t₂ 5))).store) key₂
          = some (now₂ + min t₂ 5, c₂.simple.get now₂ key₂)
      rw [scSet_lookup, hexp]
    · rw [hcall]
      show lookupKey ((c₂.file.set now₂ key₂ (c₂.simple.get now₂ key₂)
          Option.none true).2.dir) (getFilename key₂)
          = some (FileData.complete ⌊now₂ + c₂.file.default_timeout⌋
              (c₂.simple.get now₂ key₂))
      rw [fsSet_lookup]

/-- Witness for the amended C1 with requested timeout `2` at `now = 10`:
on both recovery paths the memory tier is republished with expiration
`10 + min 2 5 = 12` and the disk tier with its default TTL
(expiration `86410`). -/
theorem spec_C1_witness :
    (c1ex.call (ε := Unit) 10 "k" (Except.error ()) (some 2)).1
        = Except.ok (PyVal.int 7)
    ∧ lookupKey ((c1ex.call (ε := Unit) 10 "k" (Except.error ())
        (some 2)).2.simple.store) "k" = some ((12 : ℚ), PyVal.int 7)
    ∧ lookupKey ((c1ex.call (ε := Unit) 10 "k" (Except.error ())
        (some 2)).2.file.dir) "k"
        = some (FileData.complete 86410 (PyVal.int 7))
    ∧ (c1rex.call (ε := Unit) 10 "k" (Except.error ()) (some 2)).1
        = Except.ok (PyVal.int 7)
    ∧ lookupKey ((c1rex.call (ε := Unit) 10 "k" (Except.error ())
        (some 2)).2.simple.store) "k" = some ((12 : ℚ), PyVal.int 7)
    ∧ lookupKey ((c1rex.call (ε := Unit) 10 "k" (Except.error ())
        (some 2)).2.file.dir) "k"
        = some (FileData.complete 86410 (PyVal.int 7)) := by
  have h := spec_C1 c1ex c1rex 10 10 "k" "k" () ()
    2 2 (PyVal.int 7) (by decide) (by decide) (by decide) (by decide)
    (by decide) (by decide) (by decide)
  have hmin : (10 : ℚ) + min 2 5 = 12 := by norm_num
  have hfl1 : (⌊(10 : ℚ) + c1ex.file.default_timeout⌋ : ℤ) = 86410 := by
    norm_num [c1ex]
  have hfl2 : (⌊(10 : ℚ) + c1rex.file.default_timeout⌋ : ℤ) = 86410 := by
    norm_num [c1rex]
  refine ⟨h.1.1, ?_, ?_, h.2.1, ?_, ?_⟩
  · have h2 := h.1.2.1
    rw [hmin] at h2
    exact h2
  · have h2 := h.1.2.2
    rw [hfl1] at h2
    exact h2
  · have h2 := h.2.2.1
    rw [hmin] at h2
    exact h2
  · have h2 := h.2.2.2
    rw [hfl2] at h2
    exact h2

/-- Counterexample to claim C2 as stated: in `c2ex` (forced refresh
active) the memory tier holds the live falsy payload `0` for `"k"` — a
usable cached value, returned by the tier's `get` — yet when the
wrapped function raises, the original error propagates to the caller,
because the recovery expression
`simple.get(key) or file.get(key)` discards falsy values. -/
theorem spec_C2_counterexample :
    (c2ex.call (ε := Unit) 10 "k" (Except.error ()) (some 10)).1
        = Except.error (CallExn.fn ())
    ∧ c2ex.simple.get 10 "k" = PyVal.int 0
    ∧ PyVal.int 0 ≠ PyVal.none := by
  have hcall := call_error_propagate c2ex 10 "k" () (some 10)
    (Or.inr rfl) (by decide) (by decide)
  exact ⟨by rw [hcall], by decide, by decide⟩

/-- Claim C2, amended: on the error path the recovery follows Python
truthiness (`rv = memory.get(key) or file.get(key)`; surface the error
iff `rv is None`): a **truthy** memory value is returned and suppresses
the error; otherwise the disk tier is consulted and its value is
returned iff it is not `None` — falsy-but-present disk payloads such as
`0` are still recovered — and the original error (identity preserved)
propagates iff the memory value is falsy **and** the disk lookup yields
`None`.  A falsy live memory value alone does not suppress the error
(see the counterexample). -/
theorem spec_C2 {ε : Type} (c : TLCache) (now : ℚ) (key : String) (e : ε)
    (t : Option ℚ)
    (hbranch : c.simple.get now key = PyVal.none ∨ c.refreshCache = true) :
    ((c.call now key (Except.error e) t).1 = Except.error (CallExn.fn e)
        ↔ (pyTruthy (c.simple.get now key) = false
            ∧ (c.file.get now key).1 = FsRead.val PyVal.none))
    ∧ (pyTruthy (c.simple.get now key) = true →
        (c.call now key (Except.error e) t).1
          = Except.ok (translateOut (c.simple.get now key)))
    ∧ (∀ fv : PyVal, pyTruthy (c.simple.get now key) = false →
        (c.file.get now key).1 = FsRead.val fv → fv ≠ PyVal.none →
        (c.call now key (Except.error e) t).1
          = Except.ok (translateOut fv))
    ∧ (pyTruthy (c.simple.get now key) = false →
        (c.file.get now key).1 = FsRead.raise →
        (c.call now key (Except.error e) t).1
          = Except.error CallExn.eof) := by
  by_cases htr : pyTruthy (c.simple.get now key) = true
  · have hcall := call_error_mem c now key e t hbranch htr
    refine ⟨?_, fun _ => by rw [hcall], fun fv hfa _ _ => ?_, fun hfa _ => ?_⟩
    · rw [hcall]
      constructor
      · intro hc
        cases hc
      · rintro ⟨hfa, _⟩
        rw [htr] at hfa
        cases hfa
    · rw [htr] at hfa
      cases hfa
    · rw [htr] at hfa
      cases hfa
  · have hfa : pyTruthy (c.simple.get now key) = false :=
      Bool.not_eq_true _ ▸ Bool.eq_false_iff.mpr htr
    rcases hread : (c.file.get now key).1 with fv | _
    · by_cases hfvn : fv = PyVal.none
      · subst hfvn
        have hcall := call_error_propagate c now key e t hbranch hfa hread
        refine ⟨?_, fun htr2 => absurd htr2 htr, fun fv2 _ hread2 hne2 => ?_,
          fun _ hraise => ?_⟩
        · rw [hcall]
          exact ⟨fun _ => ⟨hfa, rfl⟩, fun _ => rfl⟩
        · injection hread2 with h2
          exact absurd h2.symm hne2
        · cases hraise
      · have hcall := call_error_file c now key e t fv hbranch hfa hread hfvn
        refine ⟨?_, fun htr2 => absurd htr2 htr, fun fv2 _ hread2 _ => ?_,
          fun _ hraise => ?_⟩
        · rw [hcall]
          constructor
          · intro hc
            cases hc
          · rintro ⟨_, hf⟩
            injection hf with h2
            exact absurd h2 hfvn
        · injection hread2 with h2
          subst h2
          rw [hcall]
        · cases hraise
    · have hcall := call_error_raise c now key e t hbranch hfa hread
      refine ⟨?_, fun htr2 => absurd htr2 htr, fun fv2 _ hread2 _ => ?_,
        fun _ _ => by rw [hcall]⟩
      · rw [hcall]
        constructor
        · intro hc
          rw [Except.error.injEq] at hc
          cases hc
        · rintro ⟨_, hf⟩
          cases hf
      · cases hread2

/-- Witness for the amended C2 on `c2wex`: the memory tier is empty and
the disk tier holds the falsy payload `0`; after the wrapped function
raises, `0` is recovered from the disk tier and the error does not
propagate. -/
theorem spec_C2_witness :
    (c2wex.call (ε := Unit) 10 "k" (Except.error ()) (some 10)).1
        = Except.ok (PyVal.int 0)
    ∧ ¬ ((c2wex.call (ε := Unit) 10 "k" (Except.error ()) (some 10)).1
        = Except.error (CallExn.fn ())) := by
  have h := spec_C2 (ε := Unit) c2wex 10 "k" () (some 10)
    (Or.inl (by decide))
  refine ⟨h.2.2.1 (PyVal.int 0) (by decide) (by decide) (by decide), ?_⟩
  intro hc
  exact (by decide :
      ¬ ((c2wex.file.get 10 "k").1 = FsRead.val PyVal.none))
    (h.1.mp hc).2

/-- Claim C8: the forced-refresh scope sets the flag for the duration of
the body and clears it on every exit path (the body's outcome `β` may
encode a normal return or a raised error — the `finally` runs either
way); while the flag is true, every memoized call invokes the wrapped
function and overwrites its cache entry even when a live cached value
exists; with the flag false, a live cached value is returned unchanged
without consulting the wrapped function (the call's outcome and state do
not depend on `fres₃`). -/
theorem spec_C8 {β : Type} {ε : Type} (c₁ c₂ c₃ : TLCache)
    (body : TLCache → β × TLCache)
    (now₂ : ℚ) (key₂ : String) (v : PyVal) (t₂ : Option ℚ)
    (now₃ : ℚ) (key₃ : String) (fres₃ : Except ε PyVal) (t₃ : Option ℚ)
    (h₂ : c₂.refreshCache = true)
    (hv : v ≠ PyVal.none) (hv2 : v ≠ PyVal.notInCache)
    (h₃ : c₃.refreshCache = false)
    (h₃live : c₃.simple.get now₃ key₃ ≠ PyVal.none) :
    ((c₁.withRefresh body).2.refreshCache = false
      ∧ (c₁.withRefresh body).1
          = (body { c₁ with refreshCache := true }).1)
    ∧ ((c₂.call (ε := ε) now₂ key₂ (Except.ok v) t₂).1 = Except.ok v
      ∧ lookupKey ((c₂.call (ε := ε) now₂ key₂ (Except.ok v)
          t₂).2.simple.store) key₂
          = some (c₂.simple.getExpiration now₂ t₂, v))
    ∧ (c₃.call now₃ key₃ fres₃ t₃
        = (Except.ok (translateOut (c₃.simple.get now₃ key₃)), c₃)) := by
  refine ⟨⟨rfl, rfl⟩, ?_, call_hit c₃ now₃ key₃ fres₃ t₃ h₃ h₃live⟩
  have hcall := call_ok_branch (ε := ε) c₂ now₂ key₂ v t₂ (Or.inr h₂)
  rw [if_pos hv] at hcall
  constructor
  · rw [hcall]
    show Except.ok (translateOut v) = Except.ok v
    rw [translateOut, if_neg hv2]
  · rw [hcall]
    show lookupKey ((c₂.simple.set now₂ key₂ v t₂).store) key₂
        = some (c₂.simple.getExpiration now₂ t₂, v)
    rw [scSet_lookup]

/-- Witness for C8: a raising body leaves the flag cleared on `c8ex`;
with refresh active (`c1rex`, which holds the live value `7` for `"k"`),
a call overwrites the entry with the fresh result `5` and returns it;
with refresh off (`c8ex`, live value `1`), the call returns the cached
`1` and leaves the state untouched even though the function would have
produced `99`. -/
theorem spec_C8_witness :
    ((c8ex.withRefresh
        (fun c => ((Except.error () : Except Unit PyVal), c))).2.refreshCache
      = false)
    ∧ (c1rex.call (ε := Unit) 10 "k" (Except.ok (PyVal.int 5))
        (some 10)).1 = Except.ok (PyVal.int 5)
    ∧ lookupKey ((c1rex.call (ε := Unit) 10 "k" (Except.ok (PyVal.int 5))
        (some 10)).2.simple.store) "k" = some ((20 : ℚ), PyVal.int 5)
    ∧ (c8ex.call (ε := Unit) 10 "k" (Except.ok (PyVal.int 99)) (some 10)
        = (Except.ok (PyVal.int 1), c8ex)) := by
  have h := spec_C8 (ε := Unit) c8ex c1rex c8ex
    (fun c => ((Except.error () : Except Unit PyVal), c))
    10 "k" (PyVal.int 5) (some 10) 10 "k" (Except.ok (PyVal.int 99))
    (some 10) (by decide) (by decide) (by decide) (by decide) (by decide)
  have hexp : SimpleCache.getExpiration c1rex.simple 10 (some 10) = 20 := by
    norm_num [c1rex, SimpleCache.getExpiration]
  refine ⟨h.1.1, h.2.1.1, ?_, h.2.2⟩
  have h2 := h.2.1.2
  rw [hexp] at h2
  exact h2

/-- Claim C9: when the wrapped function produces no value (`None`), the
orchestrator caches the `NotInCache` sentinel under the key — the key is
genuinely present in the store, distinct from being uncached — returns
`None` to the caller, and a second call while the sentinel entry is live
does not consult the wrapped function (its outcome and final state are
the same for every `fres₂`), returning `None` again with the state
unchanged. -/
theorem spec_C9 {ε δ : Type} (c : TLCache) (now : ℚ) (key : String)
    (t : Option ℚ) (now₂ : ℚ) (fres₂ : Except δ PyVal) (t₂ : Option ℚ)
    (hrefresh : c.refreshCache = false)
    (hmiss : c.simple.get now key = PyVal.none)
    (hlive : c.simple.getExpiration now t = 0
        ∨ now₂ < c.simple.getExpiration now t) :
    (c.call now key (Except.ok (ε := ε) PyVal.none) t).1
        = Except.ok PyVal.none
    ∧ lookupKey ((c.call now key (Except.ok (ε := ε)
        PyVal.none) t).2.simple.store) key
        = some (c.simple.getExpiration now t, PyVal.notInCache)
    ∧ ((c.call now key (Except.ok (ε := ε) PyVal.none) t).2.call
          now₂ key fres₂ t₂
        = (Except.ok PyVal.none,
           (c.call now key (Except.ok (ε := ε) PyVal.none) t).2)) := by
  have hcall := call_ok_branch (ε := ε) c now key PyVal.none t
    (Or.inl hmiss)
  rw [if_neg (fun hc => hc rfl)] at hcall
  have hsimple : (c.call now key (Except.ok (ε := ε) PyVal.none) t).2.simple
      = c.simple.set now key PyVal.notInCache t := by
    rw [hcall]
    rfl
  have hflag : (c.call now key (Except.ok (ε := ε) PyVal.none)
      t).2.refreshCache = false := by
    rw [hcall]
    exact hrefresh
  have hget : (c.call now key (Except.ok (ε := ε)
      PyVal.none) t).2.simple.get now₂ key = PyVal.notInCache := by
    rw [hsimple]
    unfold SimpleCache.get
    rw [scSet_lookup]
    dsimp only
    rw [if_pos hlive]
  refine ⟨by rw [hcall]; rfl, ?_, ?_⟩
  · rw [hsimple, scSet_lookup]
  · have hcall2 := call_hit _ now₂ key fres₂ t₂ hflag
      (by rw [hget]; decide)
    rw [hcall2, hget]
    rfl

/-- Witness for C9 on a fresh orchestrator: the first call (function
returned `None`, timeout 10 at `now = 0`) yields `None` and stores the
sentinel with expiration 10; the second call at `now = 3` would have
computed `99` but returns `None` without touching the state. -/
theorem spec_C9_witness :
    (c9ex.call (ε := Unit) 0 "k" (Except.ok PyVal.none) (some 10)).1
        = Except.ok PyVal.none
    ∧ lookupKey ((c9ex.call (ε := Unit) 0 "k" (Except.ok PyVal.none)
        (some 10)).2.simple.store) "k" = some ((10 : ℚ), PyVal.notInCache)
    ∧ ((c9ex.call (ε := Unit) 0 "k" (Except.ok PyVal.none)
          (some 10)).2.call (ε := Unit) 3 "k" (Except.ok (PyVal.int 99))
          (some 10)
        = (Except.ok PyVal.none,
           (c9ex.call (ε := Unit) 0 "k" (Except.ok PyVal.none)
             (some 10)).2)) := by
  have hexp : SimpleCache.getExpiration c9ex.simple 0 (some 10) = 10 := by
    norm_num [c9ex, TLCache.new, SimpleCache.getExpiration]
  have h := spec_C9 (ε := Unit) (δ := Unit) c9ex 0 "k" (some 10) 3
    (Except.ok (PyVal.int 99)) (some 10) rfl (by decide)
    (Or.inr (by rw [hexp]; norm_num))
  refine ⟨h.1, ?_, h.2.2⟩
  have h2 := h.2.1
  rw [hexp] at h2
  exact h2

theorem kwSort_eq (kw₁ kw₂ : List (String × PyVal))
    (hperm : List.Perm kw₁ kw₂) (hnd : (kw₁.map Prod.fst).Nodup) :
    kw₁.mergeSort (fun a b => a.1 ≤ b.1)
      = kw₂.mergeSort (fun a b => a.1 ≤ b.1) := by
  have htrans : ∀ (a b c : String × PyVal),
      (decide (a.1 ≤ b.1)) = true → (decide (b.1 ≤ c.1)) = true →
      (decide (a.1 ≤ c.1)) = true := by
    intro a b c h1 h2
    simp only [decide_eq_true_iff] at h1 h2 ⊢
    exact le_trans h1 h2
  have htotal : ∀ (a b : String × PyVal),
      ((decide (a.1 ≤ b.1)) || (decide (b.1 ≤ a.1))) = true := by
    intro a b
    simp [le_total]
  have hs₁ := List.sorted_mergeSort htrans htotal kw₁
  have hs₂ := List.sorted_mergeSort htrans htotal kw₂
  have hp : List.Perm (kw₁.mergeSort (fun a b => a.1 ≤ b.1))
      (kw₂.mergeSort (fun a b => a.1 ≤ b.1)) :=
    (List.mergeSort_perm kw₁ _).trans
      (hperm.trans (List.mergeSort_perm kw₂ _).symm)
  have hnd₁ : (((kw₁.mergeSort (fun a b => a.1 ≤ b.1)).map Prod.fst)).Nodup :=
    (((List.mergeSort_perm kw₁ _).map Prod.fst).symm).nodup hnd
  have hnd₂ : (((kw₂.mergeSort (fun a b => a.1 ≤ b.1)).map Prod.fst)).Nodup :=
    ((hp.map Prod.fst)).nodup hnd₁
  have hne₁ : List.Pairwise (fun a b : String × PyVal => a.1 ≠ b.1)
      (kw₁.mergeSort (fun a b => a.1 ≤ b.1)) := List.pairwise_map.mp hnd₁
  have hne₂ : List.Pairwise (fun a b : String × PyVal => a.1 ≠ b.1)
      (kw₂.mergeSort (fun a b => a.1 ≤ b.1)) := List.pairwise_map.mp hnd₂
  have hlt₁ : List.Pairwise (fun a b : String × PyVal => a.1 < b.1)
      (kw₁.mergeSort (fun a b => a.1 ≤ b.1)) :=
    (hs₁.and hne₁).imp (fun h => lt_of_le_of_ne (by simpa using h.1) h.2)
  have hlt₂ : List.Pairwise (fun a b : String × PyVal => a.1 < b.1)
      (kw₂.mergeSort (fun a b => a.1 ≤ b.1)) :=
    (hs₂.and hne₂).imp (fun h => lt_of_le_of_ne (by simpa using h.1) h.2)
  haveI : IsAntisymm (String × PyVal) (fun a b => a.1 < b.1) :=
    ⟨fun _ _ h1 h2 => absurd h2 (not_lt.mpr (le_of_lt h1))⟩
  exact List.eq_of_perm_of_sorted hp hlt₁ hlt₂

/-- Counterexample to claim C4 as stated: the two distinguishable
logical calls `f("a:b")` and `f("a", "b")` (different positional
arguments) derive the byte-identical key `"f:a:b"`, because arguments
are joined with the `":"` delimiter without escaping. -/
theorem spec_C4_counterexample :
    generate_cache_key Option.none (FuncRef.func ⟨"f", []⟩)
        [PyVal.str "a:b"] []
      = generate_cache_key Option.none (FuncRef.func ⟨"f", []⟩)
        [PyVal.str "a", PyVal.str "b"] []
    ∧ ([PyVal.str "a:b"] : List PyVal) ≠ [PyVal.str "a", PyVal.str "b"] := by
  exact ⟨rfl, by decide⟩

/-- Claim C4, amended: key derivation is a deterministic function of the
logical call, and keyword-argument ordering at the call site never
affects the key (keyword pairs are sorted by name): any two
keyword-argument lists that are permutations of one another (with
distinct names, as Python keyword arguments are) yield the identical
key.  However the derivation is **not** injective: distinguishable
logical calls can collide when an argument's string form contains the
`":"` delimiter (see the counterexample). -/
theorem spec_C4 (ns : Option String) (f : FuncRef) (args : List PyVal)
    (kw₁ kw₂ : List (String × PyVal))
    (hperm : List.Perm kw₁ kw₂)
    (hnd : (kw₁.map Prod.fst).Nodup) :
    generate_cache_key ns f args kw₁ = generate_cache_key ns f args kw₂ := by
  unfold generate_cache_key
  rw [kwSort_eq kw₁ kw₂ hperm hnd]

/-- Witness for the amended C4: swapping the keyword arguments
`a=1, b=2` at the call site leaves the derived key unchanged. -/
theorem spec_C4_witness :
    generate_cache_key (some "ns") (FuncRef.func ⟨"f", []⟩)
        [PyVal.int 1, PyVal.int 2]
        [("a", PyVal.int 1), ("b", PyVal.int 2)]
      = generate_cache_key (some "ns") (FuncRef.func ⟨"f", []⟩)
        [PyVal.int 1, PyVal.int 2]
        [("b", PyVal.int 2), ("a", PyVal.int 1)] :=
  spec_C4 (some "ns") (FuncRef.func ⟨"f", []⟩) [PyVal.int 1, PyVal.int 2]
    [("a", PyVal.int 1), ("b", PyVal.int 2)]
    [("b", PyVal.int 2), ("a", PyVal.int 1)] (by decide) (by decide)

/-- Claim C5 is contradicted by the code (code bug): whenever
`function_or_name` is a string, `generate_cache_key` raises, because
`inspect.getargspec(f)` (line 21) runs before the
`isinstance(f, basestring)` branch (lines 26-29) and Python 2's
`getargspec` raises `TypeError` on a string — the verbatim-string branch
is unreachable, contradicting its evident intent.  This theorem
evaluates the code at the failing inputs: for every string reference the
derivation fails instead of succeeding with the string used verbatim. -/
theorem spec_C5 (ns : Option String) (s : String) (args : List PyVal)
    (kwargs : List (String × PyVal)) :
    generate_cache_key ns (FuncRef.str s) args kwargs = Option.none := rfl

/-- Witness for C5 at a concrete failing input. -/
theorem spec_C5_witness :
    generate_cache_key Option.none (FuncRef.str "myfunc") [PyVal.int 1] []
      = Option.none :=
  spec_C5 Option.none "myfunc" [PyVal.int 1] []

/-- Claim C7 is contradicted by the code (code bug) on the
failure path: when pickling the payload fails after the expiration was
written (`dumpOk = false`), the inner `except` of
`FileSystemCache.set` (lines 302-307) swallows the error and the code
still renames the half-written temporary file over the target and
returns `True` — partially updating the target and destroying the good
value previously stored there, instead of returning failure without
touching the target as the claim requires.  Evaluated at the failing
input: target `"k"` holds `1` (served by `get` beforehand),
`set("k", 2, timeout=20)` at `now = 10` with a failing payload dump
reports success and leaves a half-written target whose subsequent live
read raises an uncaught `EOFError` (`FsRead.raise`). -/
theorem spec_C7 :
    ((fc7ex.get 10 "k").1 = FsRead.val (PyVal.int 1))
    ∧ (fc7ex.set 10 "k" (PyVal.int 2) (some 20) false).1 = true
    ∧ lookupKey ((fc7ex.set 10 "k" (PyVal.int 2) (some 20) false).2.dir) "k"
        = some (FileData.halfWritten 30)
    ∧ ((fc7ex.set 10 "k" (PyVal.int 2) (some 20) false).2.get 10 "k").1
        = FsRead.raise := by
  refine ⟨by decide, rfl, ?_, ?_⟩
  · norm_num [fc7ex, FileSystemCache.set, FileSystemCache.prune,
      getFilename, assocSet, lookupKey]
  · norm_num [fc7ex, FileSystemCache.set, FileSystemCache.prune,
      FileSystemCache.get, getFilename, assocSet, lookupKey]

end TLCacheModel
